import Mathlib

/-!
# Verification of OCR4Linux

A shallow embedding of `OCR4Linux.py` (version 1.2.0): a command-line
utility that extracts text from an image with Tesseract OCR and writes
the result to a UTF-8 text file.  The script consists of two classes:
`TesseractConfig` (engine configuration, text extraction, persisting the
result) and `Program` (argument checking, file-existence checking,
orchestration).  External effects (filesystem, image codec, OCR engine,
output write) are supplied by an explicit environment; observable output
(stdout prints and file writes) is collected in an event trace.

The generation-1 layout reconstructor described by the design document is
not part of the sources of this repository; it is modelled from the spec
in the second half of the file.
-/

namespace OCR4Linux

/-- Observable events of one program run: a line printed to stdout, the
help text block, the output file being opened for writing (which creates
or truncates it), and a completed write of the whole text. -/
inductive Ev where
  | out (s : String)
  | helpText
  | openOutput (path : String)
  | fileWrite (path : String) (content : String)
  deriving DecidableEq, Repr

/-- Abstract handle for a decoded image (a PIL `Image` object). -/
abbrev Image : Type := Nat

/-- The outside world as the script observes it: the argument vector
`sys.argv`, the filesystem existence test `os.path.exists`, the image
codec `Image.open`, the engine call `pytesseract.image_to_string`
(arguments: image, lang, config) and the output write
`open(path, 'w').write(text)`.  A fallible operation returns `Except`
carrying the exception message `str(e)`. -/
structure Env where
  argv : List String
  pathExists : String → Bool
  openImage : String → Except String Image
  image_to_string : Image → String → String → Except String String
  writeText : String → String → Except String Unit

/-- The attributes set by `TesseractConfig.__init__`. -/
structure TesseractConfig where
  image_path : String
  output_path : String
  oem_mode : Nat
  psm_mode : Nat
  langs : String
  custom_config : String
  ouput_encoding : String
  deriving DecidableEq, Repr

/-- The method `TesseractConfig.__init__(image_path, output_path)`: stores
the paths and the default engine configuration; `custom_config` is the
f-string interpolating `self.oem_mode` and `self.psm_mode` between
`--oem` and `--psm` markers. -/
def TesseractConfig.init (image_path output_path : String) : TesseractConfig :=
  let oem_mode : Nat := 3
  let psm_mode : Nat := 6
  { image_path := image_path
    output_path := output_path
    oem_mode := oem_mode
    psm_mode := psm_mode
    langs := "eng+ara"
    custom_config := "--oem " ++ toString oem_mode ++ " --psm " ++ toString psm_mode
    ouput_encoding := "utf-8" }

/-- The method `TesseractConfig.extract_text_with_lines(image)`: calls
`pytesseract.image_to_string(image=image, lang=self.langs,
config=self.custom_config)`. -/
def TesseractConfig.extract_text_with_lines (cfg : TesseractConfig) (env : Env)
    (image : Image) : Except String String :=
  env.image_to_string image cfg.langs cfg.custom_config

/-- The method `TesseractConfig.main()`: opens the image, extracts the text and
writes it to the output file, returning 0 on success; every exception in
the `try` block is caught and turned into a printed message and return
value 1.  The function is total (it returns a plain pair, not an
`Option`): no exception escapes to the caller. -/
def TesseractConfig.main (cfg : TesseractConfig) (env : Env) : Nat × List Ev :=
  match env.openImage cfg.image_path with
  | .error e => (1, [.out ("Error processing image because: " ++ e)])
  | .ok image =>
    match cfg.extract_text_with_lines env image with
    | .error e => (1, [.out ("Error processing image because: " ++ e)])
    | .ok extracted_text =>
      match env.writeText cfg.output_path extracted_text with
      | .error e => (1, [.openOutput cfg.output_path,
                         .out ("Error processing image because: " ++ e)])
      | .ok _ => (0, [.openOutput cfg.output_path,
                      .fileWrite cfg.output_path extracted_text])

/-- The attributes set by `Program.__init__` that influence control flow
(the prose fields — author, usage strings, … — only feed the help text,
which the trace records as the single event `Ev.helpText`). -/
structure Program where
  args_num : Nat
  deriving DecidableEq, Repr

/-- The constructor call `Program()`. -/
def Program.init : Program := { args_num := 3 }

/-- Python list indexing `l[i]`: raises `IndexError` out of bounds,
modelled as `none`. -/
def pyGet (l : List String) (i : Nat) : Option String := l[i]?

/-- Python's short-circuiting `a or b` where evaluating `b` may raise:
`b` is evaluated only when `a` is false. -/
def pyOr (a : Bool) (b : Unit → Option Bool) : Option Bool :=
  if a then some true else b ()

/-- The method `Program.check_arguments()`: `if len(sys.argv) != self.args_num or
sys.argv[1] in ['-h', '--help']: self.help(); return False` — the
right-hand operand indexes `sys.argv[1]` and is reached only when the
length equals `args_num`.  Result: `none` models an uncaught
`IndexError`; otherwise the boolean result together with the events
printed. -/
def Program.check_arguments (p : Program) (argv : List String) :
    Option (Bool × List Ev) :=
  match pyOr (argv.length != p.args_num)
      (fun _ => (pyGet argv 1).map (fun a => List.contains ["-h", "--help"] a)) with
  | none => none
  | some true => some (false, [.helpText])
  | some false => some (true, [])

/-- The method `Program.check_image_path(image_path)`: prints an error naming the
path and returns `False` when `os.path.exists` fails, `True` otherwise. -/
def Program.check_image_path (_p : Program) (env : Env) (image_path : String) :
    Bool × List Ev :=
  if env.pathExists image_path then (true, [])
  else (false, [.out ("Error: File '" ++ image_path ++ "' not found")])

/-- The method `Program.main()`: argument check, image-path check, then
`TesseractConfig(sys.argv[1], sys.argv[2]).main()`.  `none` models an
uncaught exception escaping `main` (which never happens, see C1/C9). -/
def Program.main (p : Program) (env : Env) : Option (Nat × List Ev) := do
  let (ok, evs1) ← p.check_arguments env.argv
  if ok then do
    let a1 ← pyGet env.argv 1
    let a2 ← pyGet env.argv 2
    let (okPath, evs2) := p.check_image_path env a1
    if okPath then
      let tesseract := TesseractConfig.init a1 a2
      let r := tesseract.main env
      return (r.1, evs1 ++ evs2 ++ r.2)
    else
      return (1, evs1 ++ evs2)
  else
    return (1, evs1)

/-- The entry point `sys.exit(Program().main())`. -/
def run (env : Env) : Option (Nat × List Ev) :=
  Program.init.main env

/-! ## UTF-8 encoding model

`TesseractConfig.main` persists the extracted text with
`open(self.output_path, 'w', encoding=self.ouput_encoding)` where
`ouput_encoding = 'utf-8'`.  The byte-level content of the written file
is the UTF-8 encoding of the text; reading the file back decodes those
bytes.  Bytes are modelled as `Nat` values below 256. -/

/-- UTF-8 encoding of one Unicode code point as a list of bytes. -/
def utf8EncodeCp (n : Nat) : List Nat :=
  if n < 0x80 then [n]
  else if n < 0x800 then [0xC0 + n / 64, 0x80 + n % 64]
  else if n < 0x10000 then [0xE0 + n / 4096, 0x80 + n / 64 % 64, 0x80 + n % 64]
  else [0xF0 + n / 262144, 0x80 + n / 4096 % 64, 0x80 + n / 64 % 64, 0x80 + n % 64]

/-- Is `b` a UTF-8 continuation byte (`10xxxxxx`)? -/
def isCont (b : Nat) : Bool := decide (0x80 ≤ b ∧ b < 0xC0)

/-- Decode one UTF-8 sequence whose leading byte is `b` and whose
remaining input is `bs`: the code point and the unconsumed rest, or
`none` on malformed input. -/
def utf8DecodeOne (b : Nat) (bs : List Nat) : Option (Nat × List Nat) :=
  if b < 0x80 then some (b, bs)
  else if b < 0xC0 then none
  else if b < 0xE0 then
    match bs with
    | b1 :: bs' =>
      if isCont b1 then some ((b - 0xC0) * 64 + (b1 - 0x80), bs') else none
    | [] => none
  else if b < 0xF0 then
    match bs with
    | b1 :: b2 :: bs' =>
      if isCont b1 && isCont b2 then
        some ((b - 0xE0) * 4096 + (b1 - 0x80) * 64 + (b2 - 0x80), bs')
      else none
    | _ => none
  else if b < 0xF8 then
    match bs with
    | b1 :: b2 :: b3 :: bs' =>
      if isCont b1 && isCont b2 && isCont b3 then
        some ((b - 0xF0) * 262144 + (b1 - 0x80) * 4096 + (b2 - 0x80) * 64
          + (b3 - 0x80), bs')
      else none
    | _ => none
  else none

/-- Fuel-bounded UTF-8 decoding of a byte list into code points; `none`
on malformed input.  The fuel only bounds the recursion depth: one unit
is ample per decoded code point. -/
def utf8DecodeAux : Nat → List Nat → Option (List Nat)
  | _, [] => some []
  | 0, _ :: _ => none
  | fuel + 1, b :: bs =>
    match utf8DecodeOne b bs with
    | none => none
    | some (n, rest) => (utf8DecodeAux fuel rest).map (n :: ·)

/-- UTF-8 decoding of a byte list into code points; `none` on malformed
input. -/
def utf8DecodeBytes (bs : List Nat) : Option (List Nat) :=
  utf8DecodeAux bs.length bs

/-- The byte content of the output file after writing string `s` with
encoding `utf-8`. -/
def utf8Encode (s : String) : List Nat :=
  (s.data.map (fun c => utf8EncodeCp c.toNat)).flatten

/-- Reading a byte list back as a UTF-8 string. -/
def utf8DecodeString (bs : List Nat) : Option String :=
  (utf8DecodeBytes bs).map (fun ns => String.mk (ns.map Char.ofNat))

/-- Writing `s` with the given encoding name, as `open(path, 'w',
encoding=...)` followed by `write(s)` does: only the encoding the script
uses is modelled. -/
def encodeWith (encoding : String) (s : String) : Option (List Nat) :=
  if encoding = "utf-8" then some (utf8Encode s) else none

/-- Reading bytes back with the given encoding name. -/
def decodeWith (encoding : String) (bs : List Nat) : Option String :=
  if encoding = "utf-8" then utf8DecodeString bs else none

/-! ## Layout reconstructor (generation 1)

Modelled from the spec: the generation-1 script with manual layout
reconstruction is not among the sources of this repository (only the
generation-2 script `OCR4Linux.py` is); the definitions below follow
section 4.3 of the design document literally. -/

/-- Modelled from the spec: one recognized word as reported by the OCR
engine in token mode — text, confidence (0–100 integer) and the four
hierarchical position indices. -/
structure Token where
  text : String
  conf : Nat
  page : Nat
  block : Nat
  par : Nat
  line : Nat
  deriving DecidableEq, Repr

/-- Composite grouping key (page, block, paragraph, line). -/
abbrev LineKey : Type := Nat × Nat × Nat × Nat

/-- The LineKey of a token. -/
def Token.key (t : Token) : LineKey := (t.page, t.block, t.par, t.line)

/-- Modelled from the spec: step 2 of the reconstruction algorithm —
discard any token whose confidence is ≤ threshold (strict greater-than
keeps). -/
def survivors (tokens : List Token) (thr : Nat) : List Token :=
  tokens.filter (fun t => decide (thr < t.conf))

/-- Append one token text under its key in an insertion-ordered
association list: an existing entry grows at its place, a new key is
appended at the end (first-seen order). -/
def addToken (gs : List (LineKey × List String)) (k : LineKey) (s : String) :
    List (LineKey × List String) :=
  match gs with
  | [] => [(k, [s])]
  | (k', ts) :: rest =>
    if k' = k then (k', ts ++ [s]) :: rest else (k', ts) :: addToken rest k s

/-- Modelled from the spec: step 3 — scan surviving tokens in engine
order, grouping texts into an ordered map keyed by LineKey in first-seen
order. -/
def groupTokens (tokens : List Token) (thr : Nat) : List (LineKey × List String) :=
  (survivors tokens thr).foldl (fun gs t => addToken gs t.key t.text) []

/-- The keys of the grouped lines, in emission order. -/
def groupKeys (tokens : List Token) (thr : Nat) : List LineKey :=
  (groupTokens tokens thr).map Prod.fst

/-- The texts grouped under key `k` (empty when the key is absent). -/
def lookupTexts (gs : List (LineKey × List String)) (k : LineKey) : List String :=
  ((gs.find? (fun g => decide (g.1 = k))).map Prod.snd).getD []

/-- Modelled from the spec: step 4 — join a line's token texts with a
single space and trim. -/
def renderLine (ts : List String) : String :=
  (String.intercalate " " ts).trim

/-- The emitted output lines: rendered lines in group order with blank
(empty after trim) lines suppressed. -/
def outputLines (tokens : List Token) (thr : Nat) : List String :=
  ((groupTokens tokens thr).map (fun g => renderLine g.2)).filter
    (fun l => decide (l ≠ ""))

/-- Modelled from the spec: the function `reconstruct(tokens, confidence_threshold)` —
steps 1–5 of section 4.3; emitted lines joined with a single newline, no
trailing newline. -/
def reconstruct (tokens : List Token) (thr : Nat) : String :=
  String.intercalate "\n" (outputLines tokens thr)

/-- First-seen order of keys, skipping keys already seen: the spec's
"order of first appearance in the token stream". -/
def firstSeenFrom (seen : List LineKey) : List LineKey → List LineKey
  | [] => []
  | k :: ks =>
    if k ∈ seen then firstSeenFrom seen ks
    else k :: firstSeenFrom (seen ++ [k]) ks

/-- First-seen order of an arbitrary key list. -/
def firstSeen (ks : List LineKey) : List LineKey := firstSeenFrom [] ks

/-! ## Concrete instances used by the witnesses -/

/-- An environment in which every stage succeeds. -/
def envOk : Env where
  argv := ["OCR4Linux.py", "screenshot.png", "output.txt"]
  pathExists := fun _ => true
  openImage := fun _ => .ok 0
  image_to_string := fun _ _ _ => .ok "Hello World"
  writeText := fun _ _ => .ok ()

/-- An environment whose image file is missing. -/
def envMissing : Env where
  argv := ["OCR4Linux.py", "screenshot.png", "output.txt"]
  pathExists := fun _ => false
  openImage := fun _ => .error "No such file or directory"
  image_to_string := fun _ _ _ => .ok ""
  writeText := fun _ _ => .ok ()

/-- An environment whose image path exists (say, a directory) but cannot
be decoded as an image. -/
def envBadImage : Env where
  argv := ["OCR4Linux.py", "somedir", "output.txt"]
  pathExists := fun _ => true
  openImage := fun _ => .error "cannot identify image file"
  image_to_string := fun _ _ _ => .ok ""
  writeText := fun _ _ => .ok ()

/-- An environment invoked with the help flag. -/
def envHelp : Env where
  argv := ["OCR4Linux.py", "-h", "output.txt"]
  pathExists := fun _ => true
  openImage := fun _ => .ok 0
  image_to_string := fun _ _ _ => .ok ""
  writeText := fun _ _ => .ok ()

/-- The spec's end-to-end scenario 1 token list. -/
def demoTokens : List Token :=
  [{ text := "Hello", conf := 90, page := 0, block := 0, par := 0, line := 0 },
   { text := "World", conf := 95, page := 0, block := 0, par := 0, line := 0 },
   { text := "foo", conf := 40, page := 0, block := 0, par := 0, line := 1 }]

/-! ## Helper lemmas about the orchestrator -/

theorem check_arguments_of_len_ne (argv : List String) (h : argv.length ≠ 3) :
    Program.init.check_arguments argv = some (false, [Ev.helpText]) := by
  simp [Program.check_arguments, Program.init, pyOr, bne_iff_ne, h]

theorem check_arguments_of_flag (a0 a1 a2 : String)
    (h : a1 = "-h" ∨ a1 = "--help") :
    Program.init.check_arguments [a0, a1, a2] = some (false, [Ev.helpText]) := by
  rcases h with h | h <;>
    simp [Program.check_arguments, Program.init, pyOr, pyGet, h, List.contains]

theorem check_arguments_of_ok (a0 a1 a2 : String)
    (h : ¬(a1 = "-h" ∨ a1 = "--help")) :
    Program.init.check_arguments [a0, a1, a2] = some (true, []) := by
  push_neg at h
  simp [Program.check_arguments, Program.init, pyOr, pyGet, List.contains, h.1, h.2]

theorem main_of_len_ne (env : Env) (h : env.argv.length ≠ 3) :
    run env = some (1, [Ev.helpText]) := by
  simp [run, Program.main, check_arguments_of_len_ne env.argv h]

theorem main_of_flag (env : Env) (a0 a1 a2 : String)
    (hargv : env.argv = [a0, a1, a2]) (h : a1 = "-h" ∨ a1 = "--help") :
    run env = some (1, [Ev.helpText]) := by
  simp [run, Program.main, hargv, check_arguments_of_flag a0 a1 a2 h]

theorem main_of_missing (env : Env) (a0 a1 a2 : String)
    (hargv : env.argv = [a0, a1, a2]) (hflag : ¬(a1 = "-h" ∨ a1 = "--help"))
    (hex : env.pathExists a1 = false) :
    run env = some (1, [Ev.out ("Error: File '" ++ a1 ++ "' not found")]) := by
  simp [run, Program.main, hargv, check_arguments_of_ok a0 a1 a2 hflag, pyGet,
    Program.check_image_path, hex]

theorem main_of_ok_path (env : Env) (a0 a1 a2 : String)
    (hargv : env.argv = [a0, a1, a2]) (hflag : ¬(a1 = "-h" ∨ a1 = "--help"))
    (hex : env.pathExists a1 = true) :
    run env = some ((TesseractConfig.init a1 a2).main env) := by
  simp [run, Program.main, hargv, check_arguments_of_ok a0 a1 a2 hflag, pyGet,
    Program.check_image_path, hex]

/-! ## Claim theorems (orchestrator) -/

/-- C2: a usage error — argument-vector length (program name included)
other than 3, or a length-3 vector whose first positional argument is
`-h` or `--help` — prints the help text and exits with code 1; the event
trace is exactly the help text, so no image or file processing is
performed. -/
theorem c2_usage_error_help_exit1 (env : Env)
    (h : env.argv.length ≠ 3 ∨
      ∃ a0 a1 a2, env.argv = [a0, a1, a2] ∧ (a1 = "-h" ∨ a1 = "--help")) :
    run env = some (1, [Ev.helpText]) := by
  rcases h with h | ⟨a0, a1, a2, hargv, hflag⟩
  · exact main_of_len_ne env h
  · exact main_of_flag env a0 a1 a2 hargv hflag

/-- Witness for C2 at a concrete invocation with the help flag. -/
theorem c2_witness : run envHelp = some (1, [Ev.helpText]) :=
  c2_usage_error_help_exit1 envHelp
    (Or.inr ⟨"OCR4Linux.py", "-h", "output.txt", rfl, Or.inl rfl⟩)

/-- C3: when the image path does not exist, the program prints an error
naming the path and exits with code 1; the trace contains no
output-file open or write, so the file at `output_path` is neither
created nor truncated. -/
theorem c3_missing_image_untouched_output (env : Env) (a0 a1 a2 : String)
    (hargv : env.argv = [a0, a1, a2]) (hflag : ¬(a1 = "-h" ∨ a1 = "--help"))
    (hex : env.pathExists a1 = false) :
    ∃ evs, run env = some (1, evs) ∧
      Ev.out ("Error: File '" ++ a1 ++ "' not found") ∈ evs ∧
      ∀ path content, Ev.openOutput path ∉ evs ∧ Ev.fileWrite path content ∉ evs := by
  refine ⟨[Ev.out ("Error: File '" ++ a1 ++ "' not found")],
    main_of_missing env a0 a1 a2 hargv hflag hex, by simp, ?_⟩
  intro path content
  simp

/-- Witness for C3: the missing-file environment. -/
theorem c3_witness :
    ∃ evs, run envMissing = some (1, evs) ∧
      Ev.out ("Error: File 'screenshot.png' not found") ∈ evs ∧
      ∀ path content, Ev.openOutput path ∉ evs ∧ Ev.fileWrite path content ∉ evs :=
  c3_missing_image_untouched_output envMissing "OCR4Linux.py" "screenshot.png"
    "output.txt" rfl (by decide) rfl

/-- C4: every failure inside `TesseractConfig.main`'s try block — image
decode failure, engine failure or output write failure with message
`e` — is caught: the function returns exit code 1 and prints
`Error processing image because: ` followed by the message.  No
exception escapes: `TesseractConfig.main` is a total function into
`Nat × List Ev` (not an `Option`), so it returns on every input. -/
theorem c4_processing_errors_caught (env : Env) (cfg : TesseractConfig) (e : String)
    (h : env.openImage cfg.image_path = .error e ∨
      (∃ img, env.openImage cfg.image_path = .ok img ∧
        cfg.extract_text_with_lines env img = .error e) ∨
      (∃ img text, env.openImage cfg.image_path = .ok img ∧
        cfg.extract_text_with_lines env img = .ok text ∧
        env.writeText cfg.output_path text = .error e)) :
    ∃ evs, cfg.main env = (1, evs) ∧
      Ev.out ("Error processing image because: " ++ e) ∈ evs := by
  rcases h with h | ⟨img, h1, h2⟩ | ⟨img, text, h1, h2, h3⟩
  · exact ⟨[Ev.out ("Error processing image because: " ++ e)],
      by simp [TesseractConfig.main, h], by simp⟩
  · exact ⟨[Ev.out ("Error processing image because: " ++ e)],
      by simp [TesseractConfig.main, h1, h2], by simp⟩
  · exact ⟨[Ev.openOutput cfg.output_path,
        Ev.out ("Error processing image because: " ++ e)],
      by simp [TesseractConfig.main, h1, h2, h3], by simp⟩

/-- Witness for C4: a decode failure on a concrete environment. -/
theorem c4_witness :
    ∃ evs, (TesseractConfig.init "somedir" "output.txt").main envBadImage = (1, evs) ∧
      Ev.out ("Error processing image because: cannot identify image file") ∈ evs :=
  c4_processing_errors_caught envBadImage (TesseractConfig.init "somedir" "output.txt")
    "cannot identify image file" (Or.inl rfl)

/-- C5: `extract_text_with_lines` passes the configuration's language
set and the configuration string (carrying engine mode and
page-segmentation mode) verbatim to
`pytesseract.image_to_string`, and the defaults set by `__init__` are
oem 3 (LSTM engine), psm 6 (uniform block of text) and the languages
`eng+ara` (English + Arabic). -/
theorem c5_config_passed_verbatim (image_path output_path : String) (env : Env)
    (image : Image) :
    (TesseractConfig.init image_path output_path).extract_text_with_lines env image
      = env.image_to_string image (TesseractConfig.init image_path output_path).langs
          (TesseractConfig.init image_path output_path).custom_config ∧
    (TesseractConfig.init image_path output_path).oem_mode = 3 ∧
    (TesseractConfig.init image_path output_path).psm_mode = 6 ∧
    (TesseractConfig.init image_path output_path).langs = "eng+ara" ∧
    (TesseractConfig.init image_path output_path).custom_config = "--oem 3 --psm 6" :=
  ⟨rfl, rfl, rfl, rfl, rfl⟩

/-- C9: the argument check never performs an out-of-bounds access on
the argument vector: for every vector — including the empty one — the
result is `some`, because Python's short-circuiting `or` reaches the
`sys.argv[1]` test only when the length is exactly 3; any other length
is rejected with the help text without reading a missing element. -/
theorem c9_check_arguments_no_oob (argv : List String) :
    ∃ r, Program.init.check_arguments argv = some r ∧
      (argv.length ≠ 3 → r = (false, [Ev.helpText])) := by
  by_cases h : argv.length = 3
  · obtain ⟨a0, a1, a2, rfl⟩ := List.length_eq_three.mp h
    by_cases hflag : a1 = "-h" ∨ a1 = "--help"
    · exact ⟨(false, [Ev.helpText]), check_arguments_of_flag a0 a1 a2 hflag,
        fun hne => absurd h hne⟩
    · exact ⟨(true, []), check_arguments_of_ok a0 a1 a2 hflag,
        fun hne => absurd h hne⟩
  · exact ⟨(false, [Ev.helpText]), check_arguments_of_len_ne argv h, fun _ => rfl⟩

/-- Witness for C9 at the empty argument vector, where reading index 1
would be out of bounds. -/
theorem c9_witness :
    ∃ r, Program.init.check_arguments [] = some r ∧
      (([] : List String).length ≠ 3 → r = (false, [Ev.helpText])) :=
  c9_check_arguments_no_oob []

/-- C10: validation only tests existence: when the image path exists —
whether or not it is a readable image file — `check_image_path` returns
`True` and prints nothing; when the path then fails to decode, the
failure surfaces as a caught processing exception and exit code 1. -/
theorem c10_existence_only_validation (env : Env) (a0 a1 a2 e : String)
    (hargv : env.argv = [a0, a1, a2]) (hflag : ¬(a1 = "-h" ∨ a1 = "--help"))
    (hex : env.pathExists a1 = true)
    (hopen : env.openImage a1 = .error e) :
    Program.init.check_image_path env a1 = (true, []) ∧
    run env = some (1, [Ev.out ("Error processing image because: " ++ e)]) := by
  constructor
  · simp [Program.check_image_path, hex]
  · rw [main_of_ok_path env a0 a1 a2 hargv hflag hex]
    simp [TesseractConfig.main, TesseractConfig.init, hopen]

/-- Witness for C10: an existing but undecodable path. -/
theorem c10_witness :
    Program.init.check_image_path envBadImage "somedir" = (true, []) ∧
    run envBadImage
      = some (1, [Ev.out ("Error processing image because: cannot identify image file")]) :=
  c10_existence_only_validation envBadImage "OCR4Linux.py" "somedir" "output.txt"
    "cannot identify image file" rfl (by decide) rfl rfl

/-- C1: `Program().main()` always returns, and its exit code is 0 or 1:
0 exactly when the argument check passes, the image file exists, the
image opens, text extraction succeeds and the output write succeeds;
1 in every other case (usage error, missing file, or processing
failure). -/
theorem c1_exit_code_partition (env : Env) :
    ∃ code evs, run env = some (code, evs) ∧ (code = 0 ∨ code = 1) ∧
      (code = 0 ↔ ∃ a0 a1 a2 img text,
        env.argv = [a0, a1, a2] ∧ ¬(a1 = "-h" ∨ a1 = "--help") ∧
        env.pathExists a1 = true ∧
        env.openImage a1 = .ok img ∧
        (TesseractConfig.init a1 a2).extract_text_with_lines env img = .ok text ∧
        env.writeText a2 text = .ok ()) := by
  by_cases hlen : env.argv.length = 3
  · obtain ⟨a0, a1, a2, hargv⟩ := List.length_eq_three.mp hlen
    by_cases hflag : a1 = "-h" ∨ a1 = "--help"
    · refine ⟨1, [Ev.helpText], main_of_flag env a0 a1 a2 hargv hflag,
        Or.inr rfl, ?_⟩
      constructor
      · intro h; exact absurd h one_ne_zero
      · rintro ⟨a0', a1', a2', img', text', hargv', hflag', -⟩
        obtain ⟨rfl, rfl, rfl⟩ : a0 = a0' ∧ a1 = a1' ∧ a2 = a2' := by
          simpa using hargv.symm.trans hargv'
        exact absurd hflag hflag'
    · cases hex : env.pathExists a1 with
      | false =>
        refine ⟨1, [Ev.out ("Error: File '" ++ a1 ++ "' not found")],
          main_of_missing env a0 a1 a2 hargv hflag hex, Or.inr rfl, ?_⟩
        constructor
        · intro h; exact absurd h one_ne_zero
        · rintro ⟨a0', a1', a2', img', text', hargv', -, hex', -⟩
          obtain ⟨rfl, rfl, rfl⟩ : a0 = a0' ∧ a1 = a1' ∧ a2 = a2' := by
            simpa using hargv.symm.trans hargv'
          rw [hex] at hex'
          exact absurd hex' Bool.false_ne_true
      | true =>
        have hrun := main_of_ok_path env a0 a1 a2 hargv hflag hex
        cases hopen : env.openImage a1 with
        | error e =>
          refine ⟨1, [Ev.out ("Error processing image because: " ++ e)], ?_,
            Or.inr rfl, ?_⟩
          · rw [hrun]; simp [TesseractConfig.main, TesseractConfig.init, hopen]
          constructor
          · intro h; exact absurd h one_ne_zero
          · rintro ⟨a0', a1', a2', img', text', hargv', -, -, hopen', -⟩
            obtain ⟨rfl, rfl, rfl⟩ : a0 = a0' ∧ a1 = a1' ∧ a2 = a2' := by
              simpa using hargv.symm.trans hargv'
            rw [hopen] at hopen'
            exact Except.noConfusion hopen'
        | ok img =>
          cases hocr : (TesseractConfig.init a1 a2).extract_text_with_lines env img with
          | error e =>
            refine ⟨1, [Ev.out ("Error processing image because: " ++ e)], ?_,
              Or.inr rfl, ?_⟩
            · rw [hrun]; simp [TesseractConfig.main, TesseractConfig.init, hopen,
                TesseractConfig.extract_text_with_lines] at hocr ⊢
              simp [hocr]
            constructor
            · intro h; exact absurd h one_ne_zero
            · rintro ⟨a0', a1', a2', img', text', hargv', -, -, hopen', hocr', -⟩
              obtain ⟨rfl, rfl, rfl⟩ : a0 = a0' ∧ a1 = a1' ∧ a2 = a2' := by
                simpa using hargv.symm.trans hargv'
              rw [hopen] at hopen'
              obtain rfl : img = img' := by simpa using hopen'
              rw [hocr] at hocr'
              exact Except.noConfusion hocr'
          | ok text =>
            cases hw : env.writeText a2 text with
            | error e =>
              refine ⟨1, [Ev.openOutput a2,
                Ev.out ("Error processing image because: " ++ e)], ?_,
                Or.inr rfl, ?_⟩
              · rw [hrun]; simp [TesseractConfig.main, TesseractConfig.init, hopen,
                  TesseractConfig.extract_text_with_lines] at hocr hw ⊢
                simp [hocr, hw]
              constructor
              · intro h; exact absurd h one_ne_zero
              · rintro ⟨a0', a1', a2', img', text', hargv', -, -, hopen', hocr', hw'⟩
                obtain ⟨rfl, rfl, rfl⟩ : a0 = a0' ∧ a1 = a1' ∧ a2 = a2' := by
                  simpa using hargv.symm.trans hargv'
                rw [hopen] at hopen'
                obtain rfl : img = img' := by simpa using hopen'
                rw [hocr] at hocr'
                obtain rfl : text = text' := by simpa using hocr'
                rw [hw] at hw'
                exact Except.noConfusion hw'
            | ok u =>
              refine ⟨0, [Ev.openOutput a2, Ev.fileWrite a2 text], ?_, Or.inl rfl, ?_⟩
              · rw [hrun]; simp [TesseractConfig.main, TesseractConfig.init, hopen,
                  TesseractConfig.extract_text_with_lines] at hocr hw ⊢
                simp [hocr, hw]
              · simp only [true_iff]
                exact ⟨a0, a1, a2, img, text, hargv, hflag, hex, hopen, hocr, by
                  cases u; exact hw⟩
  · refine ⟨1, [Ev.helpText], main_of_len_ne env hlen, Or.inr rfl, ?_⟩
    constructor
    · intro h; exact absurd h one_ne_zero
    · rintro ⟨a0', a1', a2', img', text', hargv', -⟩
      exact absurd (by rw [hargv']; rfl) hlen

/-- Witness for C1 at a fully successful environment. -/
theorem c1_witness :
    ∃ code evs, run envOk = some (code, evs) ∧ (code = 0 ∨ code = 1) ∧
      (code = 0 ↔ ∃ a0 a1 a2 img text,
        envOk.argv = [a0, a1, a2] ∧ ¬(a1 = "-h" ∨ a1 = "--help") ∧
        envOk.pathExists a1 = true ∧
        envOk.openImage a1 = .ok img ∧
        (TesseractConfig.init a1 a2).extract_text_with_lines envOk img = .ok text ∧
        envOk.writeText a2 text = .ok ()) :=
  c1_exit_code_partition envOk

/-! ## UTF-8 round trip -/

theorem char_toNat_lt (c : Char) : c.toNat < 1114112 := by
  have hdef : c.toNat = c.val.toNat := rfl
  rcases c.valid with h | ⟨h1, h2⟩
  · have hh : c.val.toNat < 55296 := h
    omega
  · have hh : c.val.toNat < 1114112 := h2
    omega

theorem utf8EncodeCp_decodeOne (n : Nat) (hn : n < 1114112) (bs : List Nat) :
    ∃ b tail, utf8EncodeCp n = b :: tail ∧
      utf8DecodeOne b (tail ++ bs) = some (n, bs) := by
  by_cases h1 : n < 0x80
  · exact ⟨n, [], by simp [utf8EncodeCp, h1], by simp [utf8DecodeOne, h1]⟩
  by_cases h2 : n < 0x800
  · refine ⟨0xC0 + n / 64, [0x80 + n % 64], by simp [utf8EncodeCp, h1, h2], ?_⟩
    have hb0a : ¬ (0xC0 + n / 64 < 0x80) := by omega
    have hb0b : ¬ (0xC0 + n / 64 < 0xC0) := by omega
    have hb0c : 0xC0 + n / 64 < 0xE0 := by omega
    have hc1 : isCont (0x80 + n % 64) = true := by simp [isCont]; omega
    simp [utf8DecodeOne, hb0a, hb0b, hb0c, hc1]
    omega
  by_cases h3 : n < 0x10000
  · refine ⟨0xE0 + n / 4096, [0x80 + n / 64 % 64, 0x80 + n % 64],
      by simp [utf8EncodeCp, h1, h2, h3], ?_⟩
    have hb0a : ¬ (0xE0 + n / 4096 < 0x80) := by omega
    have hb0b : ¬ (0xE0 + n / 4096 < 0xC0) := by omega
    have hb0c : ¬ (0xE0 + n / 4096 < 0xE0) := by omega
    have hb0d : 0xE0 + n / 4096 < 0xF0 := by omega
    have hc1 : isCont (0x80 + n / 64 % 64) = true := by simp [isCont]; omega
    have hc2 : isCont (0x80 + n % 64) = true := by simp [isCont]; omega
    simp [utf8DecodeOne, hb0a, hb0b, hb0c, hb0d, hc1, hc2]
    omega
  · refine ⟨0xF0 + n / 262144, [0x80 + n / 4096 % 64, 0x80 + n / 64 % 64, 0x80 + n % 64],
      by simp [utf8EncodeCp, h1, h2, h3], ?_⟩
    have hb0a : ¬ (0xF0 + n / 262144 < 0x80) := by omega
    have hb0b : ¬ (0xF0 + n / 262144 < 0xC0) := by omega
    have hb0c : ¬ (0xF0 + n / 262144 < 0xE0) := by omega
    have hb0d : ¬ (0xF0 + n / 262144 < 0xF0) := by omega
    have hb0e : 0xF0 + n / 262144 < 0xF8 := by omega
    have hc1 : isCont (0x80 + n / 4096 % 64) = true := by simp [isCont]; omega
    have hc2 : isCont (0x80 + n / 64 % 64) = true := by simp [isCont]; omega
    have hc3 : isCont (0x80 + n % 64) = true := by simp [isCont]; omega
    simp [utf8DecodeOne, hb0a, hb0b, hb0c, hb0d, hb0e, hc1, hc2, hc3]
    omega

theorem utf8DecodeOne_length (b : Nat) (bs : List Nat) (n : Nat) (rest : List Nat)
    (h : utf8DecodeOne b bs = some (n, rest)) : rest.length ≤ bs.length := by
  rcases bs with _ | ⟨b1, _ | ⟨b2, _ | ⟨b3, bs'⟩⟩⟩ <;>
      (simp only [utf8DecodeOne] at h; split_ifs at h <;> simp_all) <;>
    omega

theorem utf8DecodeAux_mono (fuel fuel' : Nat) (bs : List Nat)
    (h : bs.length ≤ fuel) (h' : bs.length ≤ fuel') :
    utf8DecodeAux fuel bs = utf8DecodeAux fuel' bs := by
  induction fuel generalizing fuel' bs with
  | zero =>
    cases bs with
    | nil => cases fuel' <;> rfl
    | cons b bs => simp at h
  | succ fuel ih =>
    cases bs with
    | nil => cases fuel' <;> rfl
    | cons b bs =>
      cases fuel' with
      | zero => simp at h'
      | succ fuel' =>
        cases hone : utf8DecodeOne b bs with
        | none => simp [utf8DecodeAux, hone]
        | some p =>
          obtain ⟨n, rest⟩ := p
          have hlen := utf8DecodeOne_length b bs n rest hone
          simp only [utf8DecodeAux, hone]
          rw [ih fuel' rest (by simp at h; omega) (by simp at h'; omega)]

theorem utf8DecodeBytes_flatten (cs : List Char) :
    utf8DecodeBytes ((cs.map (fun c => utf8EncodeCp c.toNat)).flatten)
      = some (cs.map Char.toNat) := by
  induction cs with
  | nil => rfl
  | cons c cs ih =>
    obtain ⟨b, tail, henc, hdec⟩ := utf8EncodeCp_decodeOne c.toNat (char_toNat_lt c)
      ((cs.map (fun x => utf8EncodeCp x.toNat)).flatten)
    simp only [List.map_cons, List.flatten_cons]
    rw [henc]
    unfold utf8DecodeBytes
    simp only [List.cons_append, List.length_cons]
    simp only [utf8DecodeAux, hdec]
    rw [utf8DecodeAux_mono ((tail ++ (cs.map (fun x => utf8EncodeCp x.toNat)).flatten).length)
      ((cs.map (fun x => utf8EncodeCp x.toNat)).flatten).length
      ((cs.map (fun x => utf8EncodeCp x.toNat)).flatten)
      (by simp) (Nat.le_refl _)]
    have hrest : utf8DecodeAux ((cs.map (fun x => utf8EncodeCp x.toNat)).flatten).length
        ((cs.map (fun x => utf8EncodeCp x.toNat)).flatten) = some (cs.map Char.toNat) := ih
    rw [hrest]
    rfl

/-- C6: the persist/read round trip — the extracted text written to the
output file with the configuration's `utf-8` encoding and read back
with UTF-8 decoding is recovered exactly, for every string. -/
theorem c6_utf8_roundtrip (image_path output_path : String) (s : String) :
    ((encodeWith (TesseractConfig.init image_path output_path).ouput_encoding s).bind
      (decodeWith (TesseractConfig.init image_path output_path).ouput_encoding)) = some s := by
  have henc : (TesseractConfig.init image_path output_path).ouput_encoding = "utf-8" := rfl
  rw [henc]
  simp only [encodeWith, decodeWith, if_pos, Option.some_bind]
  unfold utf8DecodeString utf8Encode
  rw [utf8DecodeBytes_flatten s.data]
  simp only [Option.map_some', List.map_map]
  have hcomp : Char.ofNat ∘ Char.toNat = id := funext fun c => Char.ofNat_toNat c
  rw [hcomp, List.map_id]

/-! ## Layout reconstructor lemmas -/

theorem addToken_keys (gs : List (LineKey × List String)) (k : LineKey) (s : String) :
    (addToken gs k s).map Prod.fst =
      if k ∈ gs.map Prod.fst then gs.map Prod.fst else gs.map Prod.fst ++ [k] := by
  induction gs with
  | nil => simp [addToken]
  | cons g rest ih =>
    obtain ⟨k', ts⟩ := g
    by_cases hk : k' = k
    · simp [addToken, hk]
    · simp only [addToken, if_neg hk, List.map_cons, ih, List.mem_cons]
      by_cases hmem : k ∈ rest.map Prod.fst
      · simp [hmem, Ne.symm hk]
      · simp [hmem, Ne.symm hk]

theorem lookupTexts_cons_ne (k0 : LineKey) (ts : List String)
    (l : List (LineKey × List String)) (k : LineKey) (h : ¬ k0 = k) :
    lookupTexts ((k0, ts) :: l) k = lookupTexts l k := by
  simp [lookupTexts, List.find?, h]

theorem lookupTexts_cons_eq (k0 : LineKey) (ts : List String)
    (l : List (LineKey × List String)) :
    lookupTexts ((k0, ts) :: l) k0 = ts := by
  simp [lookupTexts, List.find?]

theorem addToken_lookup (gs : List (LineKey × List String)) (k : LineKey) (s : String)
    (k' : LineKey) :
    lookupTexts (addToken gs k s) k' =
      if k' = k then lookupTexts gs k ++ [s] else lookupTexts gs k' := by
  induction gs with
  | nil =>
    by_cases hk : k' = k
    · subst hk
      simp [addToken, lookupTexts, List.find?]
    · simp [addToken, lookupTexts, List.find?, Ne.symm hk, hk]
  | cons g rest ih =>
    obtain ⟨k0, ts⟩ := g
    simp only [addToken]
    by_cases h0 : k0 = k
    · subst h0
      rw [if_pos rfl]
      by_cases hk : k' = k0
      · subst hk
        rw [if_pos rfl, lookupTexts_cons_eq, lookupTexts_cons_eq]
      · rw [if_neg hk, lookupTexts_cons_ne k0 (ts ++ [s]) rest k' (fun h => hk h.symm),
          lookupTexts_cons_ne k0 ts rest k' (fun h => hk h.symm)]
    · rw [if_neg h0]
      by_cases hk : k' = k0
      · subst hk
        have hne : ¬ k' = k := fun h => h0 (h ▸ rfl)
        rw [if_neg hne, lookupTexts_cons_eq, lookupTexts_cons_eq]
      · rw [lookupTexts_cons_ne k0 ts (addToken rest k s) k' (fun h => hk h.symm), ih]
        by_cases hkk : k' = k
        · subst hkk
          rw [if_pos rfl, if_pos rfl, lookupTexts_cons_ne k0 ts rest k' h0]
        · rw [if_neg hkk, if_neg hkk,
            lookupTexts_cons_ne k0 ts rest k' (fun h => hk h.symm)]

theorem foldl_addToken_keys (l : List Token) (gs : List (LineKey × List String)) :
    ((l.foldl (fun gs t => addToken gs t.key t.text) gs).map Prod.fst)
      = gs.map Prod.fst ++ firstSeenFrom (gs.map Prod.fst) (l.map Token.key) := by
  induction l generalizing gs with
  | nil => simp [firstSeenFrom]
  | cons t l ih =>
    simp only [List.foldl_cons, List.map_cons, firstSeenFrom]
    rw [ih]
    by_cases hmem : t.key ∈ gs.map Prod.fst
    · rw [if_pos hmem]
      rw [addToken_keys, if_pos hmem]
    · rw [if_neg hmem]
      rw [addToken_keys, if_neg hmem]
      rw [List.append_assoc, List.singleton_append]

theorem foldl_addToken_lookup (l : List Token) (gs : List (LineKey × List String))
    (k : LineKey) :
    lookupTexts (l.foldl (fun gs t => addToken gs t.key t.text) gs) k
      = lookupTexts gs k ++ (l.filter (fun t => decide (t.key = k))).map Token.text := by
  induction l generalizing gs with
  | nil => simp
  | cons t l ih =>
    simp only [List.foldl_cons]
    rw [ih]
    by_cases hk : t.key = k
    · rw [addToken_lookup, if_pos hk.symm, hk]
      simp [List.filter_cons, hk]
    · rw [addToken_lookup, if_neg (fun h => hk h.symm)]
      simp [List.filter_cons, hk]

theorem mem_firstSeenFrom (k : LineKey) (seen ks : List LineKey) :
    k ∈ firstSeenFrom seen ks ↔ (k ∉ seen ∧ k ∈ ks) := by
  induction ks generalizing seen with
  | nil => simp [firstSeenFrom]
  | cons a ks ih =>
    simp only [firstSeenFrom]
    by_cases ha : a ∈ seen
    · rw [if_pos ha, ih]
      simp only [List.mem_cons]
      constructor
      · rintro ⟨h1, h2⟩
        exact ⟨h1, Or.inr h2⟩
      · rintro ⟨h1, h2 | h2⟩
        · exact absurd (h2 ▸ ha) h1
        · exact ⟨h1, h2⟩
    · rw [if_neg ha]
      simp only [List.mem_cons, ih, List.mem_append, List.mem_singleton]
      by_cases hka : k = a
      · subst hka
        simp [ha]
      · simp [hka]

theorem nodup_firstSeenFrom (seen ks : List LineKey) : (firstSeenFrom seen ks).Nodup := by
  induction ks generalizing seen with
  | nil => simp [firstSeenFrom]
  | cons a ks ih =>
    simp only [firstSeenFrom]
    by_cases ha : a ∈ seen
    · rw [if_pos ha]
      exact ih seen
    · rw [if_neg ha]
      refine List.nodup_cons.mpr ⟨?_, ih (seen ++ [a])⟩
      intro hmem
      exact ((mem_firstSeenFrom a (seen ++ [a]) ks).mp hmem).1
        (List.mem_append_right _ (by simp))

theorem groupKeys_eq_firstSeen (tokens : List Token) (thr : Nat) :
    groupKeys tokens thr = firstSeen ((survivors tokens thr).map Token.key) := by
  unfold groupKeys groupTokens firstSeen
  rw [foldl_addToken_keys]
  simp

theorem groupTokens_lookup (tokens : List Token) (thr : Nat) (k : LineKey) :
    lookupTexts (groupTokens tokens thr) k
      = ((survivors tokens thr).filter (fun t => decide (t.key = k))).map Token.text := by
  unfold groupTokens
  rw [foldl_addToken_lookup]
  simp [lookupTexts]

/-- C7: the reconstructor keeps a token iff its confidence is strictly
above the threshold.  The grouped lines have pairwise distinct keys (so
a kept token lands in exactly one line); the texts grouped under any
key `k` are exactly the texts of the surviving (confidence >
threshold) tokens with that key, in input order — tokens at or below
the threshold contribute to no line; and a key owns a line iff some
token with that key survives. -/
theorem c7_confidence_filter_exact (tokens : List Token) (thr : Nat) :
    (groupKeys tokens thr).Nodup ∧
    (∀ k, lookupTexts (groupTokens tokens thr) k
        = ((survivors tokens thr).filter (fun t => decide (t.key = k))).map Token.text) ∧
    (∀ k, k ∈ groupKeys tokens thr ↔ ∃ t, t ∈ tokens ∧ thr < t.conf ∧ t.key = k) := by
  refine ⟨?_, groupTokens_lookup tokens thr, ?_⟩
  · rw [groupKeys_eq_firstSeen]
    exact nodup_firstSeenFrom [] _
  · intro k
    rw [groupKeys_eq_firstSeen]
    unfold firstSeen
    rw [mem_firstSeenFrom]
    simp only [List.not_mem_nil, not_false_iff, true_and, List.mem_map, survivors,
      List.mem_filter, decide_eq_true_eq]
    constructor
    · rintro ⟨t, ⟨ht, hc⟩, hk⟩
      exact ⟨t, ht, hc, hk⟩
    · rintro ⟨t, ht, hc, hk⟩
      exact ⟨t, ⟨ht, hc⟩, hk⟩

/-- Witness for C7 on the spec's scenario-1 tokens with threshold 60:
the two surviving tokens land on the single line keyed (0,0,0,0). -/
theorem c7_witness :
    lookupTexts (groupTokens demoTokens 60) (0, 0, 0, 0) = ["Hello", "World"] := by
  have h := (c7_confidence_filter_exact demoTokens 60).2.1 (0, 0, 0, 0)
  rw [h]
  rfl

/-- C8: output lines appear in first-seen order of each LineKey among
surviving tokens (insertion order, not numeric order); lines that are
blank after trimming are dropped from the emitted list (keeping the
order of the others); and an empty token sequence reconstructs to the
empty string. -/
theorem c8_line_order_first_seen (tokens : List Token) (thr : Nat) :
    groupKeys tokens thr = firstSeen ((survivors tokens thr).map Token.key) ∧
    reconstruct tokens thr = String.intercalate "\n"
      (((groupTokens tokens thr).map (fun g => renderLine g.2)).filter
        (fun l => decide (l ≠ ""))) ∧
    reconstruct [] thr = "" :=
  ⟨groupKeys_eq_firstSeen tokens thr, rfl, rfl⟩

/-- Witness for C8 at the spec's scenario-1 tokens. -/
theorem c8_witness :
    groupKeys demoTokens 60 = firstSeen ((survivors demoTokens 60).map Token.key) ∧
    reconstruct demoTokens 60 = String.intercalate "\n"
      (((groupTokens demoTokens 60).map (fun g => renderLine g.2)).filter
        (fun l => decide (l ≠ ""))) ∧
    reconstruct [] 60 = "" :=
  c8_line_order_first_seen demoTokens 60

end OCR4Linux
